import Mathlib

/-!
Shallow embedding of `src/fem/fmsconvert.cpp` (the FMS-to-MFEM mesh
conversion core): the data model of the FMS source mesh, the target-mesh
operations the converter performs, and the full control flow of
`FmsMeshToMesh` and `FmsDataCollectionToDataCollection`, including every
error code (1..19) and the single-exit cleanup at `func_exit`.

Parts of the mfem library that the converter calls but whose code is not in
`src/` (mfem::Mesh topology finalization, the finite-element space DOF
queries, mfem::HashTable) are modelled from the specification, as noted on
each definition.  Coordinate scalars (C `double`) are modelled as opaque
`Int` tokens: the converter only moves them, never computes with them.
-/

namespace FmsConvert

/-! ### Generic indexed lookup (models mfem::HashTable id lookup) -/

/-- Position of the first occurrence of `x` in `l`, if any.  Models the
lookup an mfem `HashTable` performs before assigning a fresh sequential id. -/
def lookupIdx {α : Type} [DecidableEq α] : List α → α → Option Nat
  | [], _ => none
  | k :: ks, x => if k = x then some 0 else (lookupIdx ks x).map (· + 1)

/-! ### FMS-side data model -/

/-- The six FMS entity types, in FMS enumeration order
(`FMS_VERTEX .. FMS_HEXAHEDRON`). -/
inductive FmsEntityType where
  | vertex
  | edge
  | triangle
  | quadrilateral
  | tetrahedron
  | hexahedron
deriving DecidableEq

/-- Entity types in FMS enumeration order, as iterated by
`for (et = FMS_VERTEX; et < FMS_NUM_ENTITY_TYPES; et++)`. -/
def FmsEntityType.all : List FmsEntityType :=
  [.vertex, .edge, .triangle, .quadrilateral, .tetrahedron, .hexahedron]

/-- Topological dimension of each entity type (the C array `FmsEntityDim`). -/
def FmsEntityDim : FmsEntityType → Nat
  | .vertex => 0
  | .edge => 1
  | .triangle => 2
  | .quadrilateral => 2
  | .tetrahedron => 3
  | .hexahedron => 3

/-- Number of defining vertices of each entity type (the C array
`FmsEntityNumVerts`). -/
def FmsEntityNumVerts : FmsEntityType → Nat
  | .vertex => 1
  | .edge => 2
  | .triangle => 3
  | .quadrilateral => 4
  | .tetrahedron => 4
  | .hexahedron => 8

/-- FMS integer element types (`FmsIntType`). -/
inductive FmsIntType where
  | int8
  | uint8
  | int16
  | uint16
  | int32
  | uint32
  | int64
  | uint64
deriving DecidableEq

/-- FMS field layouts (`FmsLayoutType`). -/
inductive FmsLayoutType where
  | byVDim
  | byNodes
deriving DecidableEq

/-- FMS scalar types; only `double` is accepted by the converter. -/
inductive FmsScalarType where
  | float
  | double
deriving DecidableEq

/-- FMS field-descriptor kinds; only `fixedOrder` is accepted. -/
inductive FmsFieldDescType where
  | fixedOrder
  | general
deriving DecidableEq

/-- FMS field continuity kinds; only `continuous` is accepted. -/
inductive FmsFieldType where
  | continuous
  | discontinuous
  | hdiv
deriving DecidableEq

/-- FMS basis kinds; only `nodalGaussClosed` is accepted. -/
inductive FmsBasisType where
  | nodalGaussClosed
  | nodalGaussOpen
  | uniformClosed
deriving DecidableEq

/-- The descriptor attached to the coordinates field
(`FmsFieldDescriptorGetNumDofs` / `GetType` / `GetFixedOrder`). -/
structure FmsFieldDescriptor where
  numDofs : Nat
  descType : FmsFieldDescType
  fieldType : FmsFieldType
  basisType : FmsBasisType
  order : Nat
deriving DecidableEq

/-- The coordinates field of the main component (`FmsFieldGet`).
`data` holds the raw scalar array as opaque tokens. -/
structure FmsField where
  spaceDim : Nat
  layout : FmsLayoutType
  dataType : FmsScalarType
  data : List Int
  fd : FmsFieldDescriptor
deriving DecidableEq

/-- What `FmsComponentGetPart` exposes for one (part, entity-type) pair:
the domain's entity-vertex tuples, the optional explicit entity-id array
with its integer type, whether a non-null orientation array is present,
and the entity count. -/
structure FmsPartEntry where
  domVerts : List (List Nat)
  entIds : Option (List Nat)
  idType : FmsIntType
  ori : Bool
  numEnts : Nat
deriving DecidableEq

/-- Vertex tuples of the entities enumerated by a part entry, as fetched by
`FmsDomainGetEntitiesVerts`: entities `0..numEnts` in bulk when no explicit
ids are given, otherwise one fetch per explicit id. -/
def FmsPartEntry.resolveVerts (pe : FmsPartEntry) : List (List Nat) :=
  match pe.entIds with
  | none => (List.range pe.numEnts).map (fun i => pe.domVerts.getD i [])
  | some ids => (List.range pe.numEnts).map (fun i => pe.domVerts.getD (ids.getD i 0) [])

/-- One part of a component: per entity type, the data `FmsComponentGetPart`
returns. -/
structure FmsPart where
  entries : FmsEntityType → FmsPartEntry

/-- An FMS component (`FmsComponentGetDimension` / `GetCoordinates` /
`GetNumEntities` / `GetNumParts` / `GetRelations`).  `relations` holds
indices into the mesh's component list. -/
structure FmsComponent where
  dim : Nat
  coords : Option FmsField
  numEntities : Nat
  parts : List FmsPart
  relations : List Nat

/-- An FMS tag (`FmsTagGetComponent` / `FmsTagGet`).  `comp` is the index of
the component the tag is attached to; `values` holds the raw unsigned words
of the tag array (bytes for `uint8`, 32-bit words for `int32`/`uint32`). -/
structure FmsTag where
  comp : Nat
  attrType : FmsIntType
  values : List Nat
deriving DecidableEq

/-- An FMS mesh: components plus tags. -/
structure FmsMesh where
  components : List FmsComponent
  tags : List FmsTag

/-- A data collection, as consumed by `FmsDataCollectionToDataCollection`
(`FmsDataCollectionGetMesh`). -/
structure FmsDataCollection where
  mesh : FmsMesh

/-- True when some part's entity enumeration carries a non-null
orientation-flag array. -/
def FmsMesh.hasOriEntry (m : FmsMesh) : Bool :=
  m.components.any (fun c => c.parts.any (fun p =>
    FmsEntityType.all.any (fun et => (p.entries et).ori)))

/-! ### Error codes

`FmsMeshToMesh` reports failure through the integer `err` with a single
exit point; each constructor names one assignment site in the source and
`Err.code` gives the integer the function returns there.  (`noCoords` is
the early `return 1` before the target mesh is allocated.) -/

/-- The failure conditions of `FmsMeshToMesh`, one constructor per `err`
assignment site in the source. -/
inductive Err where
  | noCoords
  | attrType
  | bdrAttrType
  | elemIdType
  | elemOri
  | edgeElement
  | bdrIdType
  | bdrOri
  | coordsNotDouble
  | notFixedOrder
  | notContinuous
  | basisNotClosed
  | nodeCountMismatch
  | edgeIndexMismatch
  | faceIndexMismatch
  | scatterIdType
  | scatterOri
  | orphanEdge
  | orphanTriangle
  | orphanQuad
deriving DecidableEq

/-- The integer return code of each failure condition. -/
def Err.code : Err → Nat
  | .noCoords => 1
  | .attrType => 1
  | .bdrAttrType => 2
  | .elemIdType => 3
  | .elemOri => 4
  | .edgeElement => 5
  | .bdrIdType => 6
  | .bdrOri => 7
  | .coordsNotDouble => 8
  | .notFixedOrder => 9
  | .notContinuous => 10
  | .basisNotClosed => 11
  | .nodeCountMismatch => 12
  | .edgeIndexMismatch => 13
  | .faceIndexMismatch => 14
  | .scatterIdType => 15
  | .scatterOri => 16
  | .orphanEdge => 17
  | .orphanTriangle => 18
  | .orphanQuad => 19

/-! ### Canonical entity index (hash tables)

Modelled from the spec: `mfem::HashTable` is not under `src/`.  Per the
spec (section 4.3) and the source comment at the face loop, the table maps
a canonical key to a sequential id: `GetId` returns the stored id when the
key is present and otherwise appends the key, assigning the next id;
`FindId` returns the stored id or a not-found signal.  The canonical key of
an edge is the sorted vertex pair; the canonical key of a face is the three
smallest of its four (sentinel-padded) vertex indices, in sorted order. -/

/-- Value of C `INT_MAX`, the sentinel fourth vertex for triangular faces. -/
def INTMAX : Nat := 2147483647

/-- Sorted pair: canonical `Hashed2` key of an edge. -/
def sortPair (a b : Nat) : Nat × Nat := if a ≤ b then (a, b) else (b, a)

/-- Insert into a sorted list, keeping it sorted. -/
def insertSorted (x : Nat) : List Nat → List Nat
  | [] => [x]
  | y :: ys => if x ≤ y then x :: y :: ys else y :: insertSorted x ys

/-- Insertion sort on `Nat` lists. -/
def sortNat (l : List Nat) : List Nat := l.foldr insertSorted []

/-- Canonical `Hashed4` key of a face: the smallest 3 of the 4 vertex
indices, sorted ("HashTable uses the smallest 3 of the 4 indices to hash
Hashed4"). -/
def faceKey (vs : List Nat) : List Nat := (sortNat vs).take 3

/-- Pad a 3-vertex face with the `INT_MAX` sentinel, as the face-index
construction loop does (`if (fv.Size() == 3) fv.Append(INT_MAX)`). -/
def padFace (fv : List Nat) : List Nat := if fv.length = 3 then fv ++ [INTMAX] else fv

/-- Modelled from the spec: an mfem `HashTable`, reduced to its key list;
the id of a key is its position. -/
structure HTable (α : Type) where
  keys : List α
deriving DecidableEq

/-- Modelled from the spec: `HashTable::GetId` — return the existing id of
the key, or append it with the next sequential id. -/
def HTable.getId {α : Type} [DecidableEq α] (t : HTable α) (k : α) : HTable α × Nat :=
  match lookupIdx t.keys k with
  | some i => (t, i)
  | none => (⟨t.keys ++ [k]⟩, t.keys.length)

/-- Modelled from the spec: `HashTable::FindId` — the id of the key if
present (`none` models the C return value `-1`). -/
def HTable.findId {α : Type} [DecidableEq α] (t : HTable α) (k : α) : Option Nat :=
  lookupIdx t.keys k

/-- The canonical-index construction loop: insert each key in order and
check that the returned id equals the running index (`if (id != i) err`). -/
def buildTableAux {α : Type} [DecidableEq α] (E : Err) :
    HTable α → Nat → List α → Except Err (HTable α)
  | t, _, [] => .ok t
  | t, i, k :: ks =>
    let p := t.getId k
    if p.2 = i then buildTableAux E p.1 (i + 1) ks else .error E

/-- Build a canonical-index table from the listed keys, failing with `E` on
the first id mismatch. -/
def buildTable {α : Type} [DecidableEq α] (E : Err) (ks : List α) : Except Err (HTable α) :=
  buildTableAux E ⟨[]⟩ 0 ks

/-- The edge-index construction loop (`mfem_edge.GetId(ev[0], ev[1])`
against index `i`, error code 13 on mismatch). -/
def buildEdgeTable (edges : List (Nat × Nat)) : Except Err (HTable (Nat × Nat)) :=
  buildTable .edgeIndexMismatch (edges.map (fun e => sortPair e.1 e.2))

/-- The face-index construction loop (pad triangles with `INT_MAX`,
`mfem_face.GetId(fv[0..3])` against index `i`, error code 14 on mismatch). -/
def buildFaceTable (faces : List (List Nat)) : Except Err (HTable (List Nat)) :=
  buildTable .faceIndexMismatch (faces.map (fun fv => faceKey (padFace fv)))

/-! ### Target-mesh model -/

/-- Geometries of the target mesh (`mfem::Geometry::Type`). -/
inductive Geom where
  | point
  | segment
  | triangle
  | square
  | tetrahedron
  | cube
deriving DecidableEq

/-- One target element or boundary element: geometry, attribute, vertex
indices. -/
structure MeshElem where
  geom : Geom
  attr : Int
  verts : List Nat
deriving DecidableEq

/-- Modelled from the spec: the target `mfem::Mesh`, reduced to the state
the converter builds — element and boundary-element lists, the number of
placeholder vertices added, and the high-order node array.  (The capacity
arguments of the `Mesh` constructor only pre-allocate and are not kept.) -/
structure MeshModel where
  dim : Nat
  spaceDim : Nat
  elements : List MeshElem
  bdrElements : List MeshElem
  numVertices : Nat
  nodes : List Int
deriving DecidableEq

/-- Modelled from the spec: everything the converter reads back from the
finalized, curved target mesh — edge/face vertex tuples from topology
finalization, per-geometry interior-DOF counts of the chosen finite-element
collection, the node array `SetCurvature` allocates, interior-DOF lists,
the dof-to-vdof map, and the per-orientation DOF permutations. -/
structure MfemOracle where
  edges : List (Nat × Nat)
  faces : List (List Nat)
  vertDofs : Nat
  edgeDofs : Nat
  triDofs : Nat
  quadDofs : Nat
  tetDofs : Nat
  hexDofs : Nat
  initNodes : List Int
  elemInteriorDofs : Nat → List Nat
  edgeInteriorDofs : Nat → List Nat
  faceInteriorDofs : Nat → List Nat
  dofToVDof : Nat → Nat → Nat
  dofOrderForOrientation : Geom → Nat → Nat → Nat

/-- The `ent_dofs` array: interior DOFs per entity type. -/
def entDofs (o : MfemOracle) : FmsEntityType → Nat
  | .vertex => o.vertDofs
  | .edge => o.edgeDofs
  | .triangle => o.triDofs
  | .quadrilateral => o.quadDofs
  | .tetrahedron => o.tetDofs
  | .hexahedron => o.hexDofs

/-! ### Attribute tags -/

/-- Reinterpretation of a raw 32-bit word as a signed `int`, as performed by
`attr.MakeRef((int*)v_attr, num_attr)` for `FMS_INT32`/`FMS_UINT32` tags. -/
def toInt32 (w : Nat) : Int :=
  if w % 4294967296 < 2147483648 then ((w % 4294967296 : Nat) : Int)
  else ((w % 4294967296 : Nat) : Int) - 4294967296

/-- Conversion of a tag's raw words to the `mfem::Array<int>` the converter
uses: `uint8` values are widened by copy; `int32`/`uint32` words are
reinterpreted in place as signed 32-bit ints; other types are unsupported
(`none`). -/
def tagValuesToInt : FmsIntType → List Nat → Option (List Int)
  | .uint8, vals => some (vals.map (fun v => ((v % 256 : Nat) : Int)))
  | .int32, vals => some (vals.map toInt32)
  | .uint32, vals => some (vals.map toInt32)
  | _, _ => none

/-- Attribute conversion step of the converter: no tag means no array;
an unsupported element type is error `E` (code 1 for the element tag,
code 2 for the boundary tag). -/
def convertAttr (E : Err) : Option FmsTag → Except Err (Option (List Int))
  | none => .ok none
  | some tag =>
    match tagValuesToInt tag.attrType tag.values with
    | none => .error E
    | some vals => .ok (some vals)

/-- Attribute of the element at insertion offset `idx`:
`elem_tag ? attr[elem_offset+i] : 1`. -/
def tagAttr (attr : Option (List Int)) (idx : Nat) : Int :=
  match attr with
  | some a => a.getD idx 0
  | none => 1

/-- Tag selection loop over all mesh tags: the first tag attached to the
main component becomes the element tag; otherwise the first tag attached to
the boundary component becomes the boundary tag. -/
def selectTags (tags : List FmsTag) (mainIdx : Nat) (bdrIdx : Option Nat) :
    Option FmsTag × Option FmsTag :=
  tags.foldl
    (fun acc tag =>
      if acc.1.isNone ∧ tag.comp = mainIdx then (some tag, acc.2)
      else if acc.2.isNone ∧ some tag.comp = bdrIdx then (acc.1, some tag)
      else acc)
    (none, none)

/-! ### Element and boundary-element construction -/

/-- The `elem_ids` integer-type precondition: explicit ids must be 32-bit
(`elem_ids != NULL && type != FMS_INT32 && type != FMS_UINT32` fails). -/
def idTypeOk (pe : FmsPartEntry) : Bool :=
  match pe.entIds with
  | none => true
  | some _ => pe.idType = .int32 || pe.idType = .uint32

/-- The add-element loop body for one entity batch: element `i` of the
batch gets geometry `g`, attribute `tagAttr attr (off + i)` (with `off` the
element count before the batch), and its vertex tuple. -/
def mkCells (g : Geom) (attr : Option (List Int)) :
    Nat → List (List Nat) → List MeshElem
  | _, [] => []
  | off, vs :: rest => ⟨g, tagAttr attr off, vs⟩ :: mkCells g attr (off + 1) rest

/-- Append a batch of elements (`Mesh::AddTriangle` / `AddQuad` / `AddTet` /
`AddHex` loop, with `elem_offset = mesh->GetNE()`). -/
def addCells (g : Geom) (attr : Option (List Int)) (vs : List (List Nat))
    (mesh : MeshModel) : MeshModel :=
  { mesh with elements := mesh.elements ++ mkCells g attr mesh.elements.length vs }

/-- Append a batch of boundary elements (`AddBdrSegment` / `AddBdrTriangle` /
`AddBdrQuad` loop, with `elem_offset = mesh->GetNBE()`). -/
def addBdrCells (g : Geom) (attr : Option (List Int)) (vs : List (List Nat))
    (mesh : MeshModel) : MeshModel :=
  { mesh with bdrElements := mesh.bdrElements ++ mkCells g attr mesh.bdrElements.length vs }

/-- The geometry `switch` of the element-construction loop: an edge as a
top-dimension element is unsupported (code 5); triangles, quads, tets and
hexes are added; the `default` label does nothing. -/
def elemSwitch (attr : Option (List Int)) (mesh : MeshModel) (pe : FmsPartEntry) :
    FmsEntityType → Except Err MeshModel
  | .edge => .error .edgeElement
  | .triangle => .ok (addCells .triangle attr pe.resolveVerts mesh)
  | .quadrilateral => .ok (addCells .square attr pe.resolveVerts mesh)
  | .tetrahedron => .ok (addCells .tetrahedron attr pe.resolveVerts mesh)
  | .hexahedron => .ok (addCells .cube attr pe.resolveVerts mesh)
  | .vertex => .ok mesh

/-- Element-construction step for one (part, entity-type) pair: skip types
whose dimension is not `dim` and empty batches; reject non-32-bit explicit
ids (code 3) and orientation arrays (code 4); then dispatch on the
geometry. -/
def addElementsEntry (dim : Nat) (attr : Option (List Int)) (mesh : MeshModel)
    (pe : FmsPartEntry) (et : FmsEntityType) : Except Err MeshModel :=
  if FmsEntityDim et ≠ dim then .ok mesh
  else if pe.numEnts = 0 then .ok mesh
  else if ¬ idTypeOk pe then .error .elemIdType
  else if pe.ori then .error .elemOri
  else elemSwitch attr mesh pe et

/-- Element-construction pass over all parts of the main component and all
entity types. -/
def addElementsPass (dim : Nat) (attr : Option (List Int)) (parts : List FmsPart)
    (mesh : MeshModel) : Except Err MeshModel :=
  parts.foldlM
    (fun m part =>
      FmsEntityType.all.foldlM (fun m et => addElementsEntry dim attr m (part.entries et) et) m)
    mesh

/-- The geometry `switch` of the boundary-construction loop: segments,
triangles and quads are added as boundary elements; every other geometry
falls to the `switch` default and is silently skipped. -/
def bdrSwitch (attr : Option (List Int)) (mesh : MeshModel) (pe : FmsPartEntry) :
    FmsEntityType → Except Err MeshModel
  | .edge => .ok (addBdrCells .segment attr pe.resolveVerts mesh)
  | .triangle => .ok (addBdrCells .triangle attr pe.resolveVerts mesh)
  | .quadrilateral => .ok (addBdrCells .square attr pe.resolveVerts mesh)
  | .vertex => .ok mesh
  | .tetrahedron => .ok mesh
  | .hexahedron => .ok mesh

/-- Boundary-construction step for one (part, entity-type) pair: skip types
whose dimension is not `dim - 1` (never taken when `dim = 0`, since the C
`dim-1` underflows) and empty batches; reject non-32-bit explicit ids
(code 6) and orientation arrays (code 7); then dispatch on the geometry. -/
def addBdrEntry (dim : Nat) (attr : Option (List Int)) (mesh : MeshModel)
    (pe : FmsPartEntry) (et : FmsEntityType) : Except Err MeshModel :=
  if dim = 0 ∨ FmsEntityDim et ≠ dim - 1 then .ok mesh
  else if pe.numEnts = 0 then .ok mesh
  else if ¬ idTypeOk pe then .error .bdrIdType
  else if pe.ori then .error .bdrOri
  else bdrSwitch attr mesh pe et

/-- Boundary-construction pass over all parts of the boundary component. -/
def addBdrPass (dim : Nat) (attr : Option (List Int)) (parts : List FmsPart)
    (mesh : MeshModel) : Except Err MeshModel :=
  parts.foldlM
    (fun m part =>
      FmsEntityType.all.foldlM (fun m et => addBdrEntry dim attr m (part.entries et) et) m)
    mesh

/-! ### Coordinate scatter -/

/-- The field strides and source data used by the scatter:
`nstride = (layout == BY_VDIM) ? space_dim : 1`,
`vstride = (layout == BY_VDIM) ? 1 : num_dofs`, `vdim = fes->GetVDim()`. -/
structure CoordsInfo where
  data : List Int
  nstride : Nat
  vstride : Nat
  vdim : Nat
deriving DecidableEq

/-- The mutable scatter state: the node array, the running source-field
read cursor `fms_dof_offset`, the per-dimension entity counters
`mfem_ent_cnt[4]`, and `mfem_last_vert_cnt`. -/
structure ScatterState where
  nodes : List Int
  fmsOfs : Nat
  cnt : List Nat
  lastVertCnt : Nat
deriving DecidableEq

/-- Bump the entity counter of dimension `d` by `n`. -/
def bumpCnt (cnt : List Nat) (d n : Nat) : List Nat := cnt.set d (cnt.getD d 0 + n)

/-- The vertex-DOF copy loop: for `i < n` and each vector component `j`,
`nodes(mfem_dof_offset*nstride + i*nstride + j*vstride) =
 coords[fms_dof_offset*nstride + i*nstride + j*vstride]`. -/
def writeVertexBlock (ci : CoordsInfo) (mfemOfs fmsOfs n : Nat) (nodes : List Int) :
    List Int :=
  (List.range n).foldl
    (fun nd i =>
      (List.range ci.vdim).foldl
        (fun nd j =>
          let idx := i * ci.nstride + j * ci.vstride
          nd.set (mfemOfs * ci.nstride + idx) (ci.data.getD (fmsOfs * ci.nstride + idx) 0))
        nd)
    nodes

/-- The interior-DOF copy loop for one entity: for `i < nDofs` and each
vector component `j`, `nodes(DofToVDof(dofs[i], j)) =
coords[(fmsOfs + perm(i))*nstride + j*vstride]`.  The element branch uses
the identity permutation. -/
def writeInteriorDofs (ci : CoordsInfo) (d2v : Nat → Nat → Nat) (dofs : List Nat)
    (nDofs fmsOfs : Nat) (perm : Nat → Nat) (nodes : List Int) : List Int :=
  (List.range nDofs).foldl
    (fun nd i =>
      (List.range ci.vdim).foldl
        (fun nd j =>
          nd.set (d2v (dofs.getD i 0) j)
            (ci.data.getD ((fmsOfs + perm i) * ci.nstride + j * ci.vstride) 0))
        nd)
    nodes

/-- Relative edge orientation: `(ev[0] == m_ev[0]) ? 0 : 1`. -/
def edgeOri (sv tv : Nat) : Nat := if sv = tv then 0 else 1

/-- The rotation-search loop `while (tv[ori] != m_ev[0]) ori++;`: the first
index of `v` in the tuple.  In C the loop is unbounded; searching the whole
tuple without a match returns its length here (the C code would read past
the buffer there). -/
def rotIdx (tv : List Nat) (v : Nat) : Nat :=
  match tv with
  | [] => 0
  | x :: rest => if x = v then 0 else rotIdx rest v + 1

/-- Relative face orientation with face size `n` (3 for triangles, 4 for
quads): rotation index `k`, then `2k` if the next source vertex (mod `n`)
matches the target's second canonical vertex, else `2k+1`. -/
def faceOri (n : Nat) (tv mev : List Nat) : Nat :=
  let k := rotIdx tv (mev.headD 0)
  if tv.getD ((k + 1) % n) 0 = mev.getD 1 0 then 2 * k else 2 * k + 1

/-- Scatter loop over the top-dimension entities of one batch: interior cell
DOFs are copied with no permutation, the read cursor advancing per DOF. -/
def scatterCells (o : MfemOracle) (ci : CoordsInfo) (cellDofs numEnts cellBase : Nat)
    (nodes : List Int) (fmsOfs : Nat) : List Int × Nat :=
  (List.range numEnts).foldl
    (fun (st : List Int × Nat) e =>
      (writeInteriorDofs ci o.dofToVDof (o.elemInteriorDofs (cellBase + e)) cellDofs st.2
         (fun i => i) st.1,
       st.2 + cellDofs))
    (nodes, fmsOfs)

/-- Scatter loop over the edges of one batch: hash lookup (`FindId`, orphan
is code 17), orientation against the target edge's canonical vertices, DOF
permutation for `SEGMENT`, then the permuted copy. -/
def scatterEdges (o : MfemOracle) (ci : CoordsInfo) (eT : HTable (Nat × Nat)) :
    List (List Nat) → List Int → Nat → Except Err (List Int × Nat)
  | [], nodes, fmsOfs => .ok (nodes, fmsOfs)
  | ev :: rest, nodes, fmsOfs =>
    match eT.findId (sortPair (ev.getD 0 0) (ev.getD 1 0)) with
    | none => .error .orphanEdge
    | some id =>
      let mev := o.edges.getD id (0, 0)
      let perm := o.dofOrderForOrientation .segment (edgeOri (ev.getD 0 0) mev.1)
      let nodes2 :=
        writeInteriorDofs ci o.dofToVDof (o.edgeInteriorDofs id) o.edgeDofs fmsOfs perm nodes
      scatterEdges o ci eT rest nodes2 (fmsOfs + o.edgeDofs)

/-- Scatter loop over the triangles of one batch: hash lookup with the
`INT_MAX` sentinel (orphan is code 18), face orientation, DOF permutation
for `TRIANGLE`, then the permuted copy. -/
def scatterTris (o : MfemOracle) (ci : CoordsInfo) (fT : HTable (List Nat)) :
    List (List Nat) → List Int → Nat → Except Err (List Int × Nat)
  | [], nodes, fmsOfs => .ok (nodes, fmsOfs)
  | tv :: rest, nodes, fmsOfs =>
    match fT.findId (faceKey [tv.getD 0 0, tv.getD 1 0, tv.getD 2 0, INTMAX]) with
    | none => .error .orphanTriangle
    | some id =>
      let mev := o.faces.getD id []
      let perm := o.dofOrderForOrientation .triangle (faceOri 3 tv mev)
      let nodes2 :=
        writeInteriorDofs ci o.dofToVDof (o.faceInteriorDofs id) o.triDofs fmsOfs perm nodes
      scatterTris o ci fT rest nodes2 (fmsOfs + o.triDofs)

/-- Scatter loop over the quadrilaterals of one batch: hash lookup (orphan
is code 19), face orientation, DOF permutation for `SQUARE`, then the
permuted copy. -/
def scatterQuads (o : MfemOracle) (ci : CoordsInfo) (fT : HTable (List Nat)) :
    List (List Nat) → List Int → Nat → Except Err (List Int × Nat)
  | [], nodes, fmsOfs => .ok (nodes, fmsOfs)
  | qv :: rest, nodes, fmsOfs =>
    match fT.findId (faceKey [qv.getD 0 0, qv.getD 1 0, qv.getD 2 0, qv.getD 3 0]) with
    | none => .error .orphanQuad
    | some id =>
      let mev := o.faces.getD id []
      let perm := o.dofOrderForOrientation .square (faceOri 4 qv mev)
      let nodes2 :=
        writeInteriorDofs ci o.dofToVDof (o.faceInteriorDofs id) o.quadDofs fmsOfs perm nodes
      scatterQuads o ci fT rest nodes2 (fmsOfs + o.quadDofs)

/-- The intermediate-dimension geometry `switch` of the scatter loop:
offset the batch's part-local vertex tuples by `mfem_last_vert_cnt`, then
dispatch to the edge / triangle / quad loops; the `switch` default only
advances the entity counter of the type's dimension. -/
def scatterSwitch (o : MfemOracle) (ci : CoordsInfo) (eT : HTable (Nat × Nat))
    (fT : HTable (List Nat)) (st : ScatterState) (pe : FmsPartEntry) :
    FmsEntityType → Except Err ScatterState
  | .edge => do
    let verts := pe.resolveVerts.map (fun vs => vs.map (· + st.lastVertCnt))
    let r ← scatterEdges o ci eT verts st.nodes st.fmsOfs
    .ok { st with nodes := r.1, fmsOfs := r.2, cnt := bumpCnt st.cnt 1 pe.numEnts }
  | .triangle => do
    let verts := pe.resolveVerts.map (fun vs => vs.map (· + st.lastVertCnt))
    let r ← scatterTris o ci fT verts st.nodes st.fmsOfs
    .ok { st with nodes := r.1, fmsOfs := r.2, cnt := bumpCnt st.cnt 2 pe.numEnts }
  | .quadrilateral => do
    let verts := pe.resolveVerts.map (fun vs => vs.map (· + st.lastVertCnt))
    let r ← scatterQuads o ci fT verts st.nodes st.fmsOfs
    .ok { st with nodes := r.1, fmsOfs := r.2, cnt := bumpCnt st.cnt 2 pe.numEnts }
  | .vertex => .ok { st with cnt := bumpCnt st.cnt 0 pe.numEnts }
  | .tetrahedron => .ok { st with cnt := bumpCnt st.cnt 3 pe.numEnts }
  | .hexahedron => .ok { st with cnt := bumpCnt st.cnt 3 pe.numEnts }

/-- Coordinate-scatter step for one (part, entity-type) pair, mirroring the
body of the part/entity-type loop at the end of `FmsMeshToMesh`: skip empty
batches; batches whose type has zero interior DOFs only advance the entity
counters (vertices also record `mfem_last_vert_cnt`); reject non-32-bit
explicit ids (code 15) and orientation arrays (code 16); copy vertex DOFs
directly; copy top-dimension interior DOFs by the running cell counter;
dispatch intermediate dimensions to `scatterSwitch`. -/
def scatterEntry (o : MfemOracle) (ci : CoordsInfo) (dim : Nat)
    (eT : HTable (Nat × Nat)) (fT : HTable (List Nat))
    (st : ScatterState) (pe : FmsPartEntry) (et : FmsEntityType) :
    Except Err ScatterState :=
  if pe.numEnts = 0 then .ok st
  else if entDofs o et = 0 then
    .ok { st with
          lastVertCnt := if et = .vertex then st.cnt.getD 0 0 else st.lastVertCnt,
          cnt := bumpCnt st.cnt (FmsEntityDim et) pe.numEnts }
  else if ¬ idTypeOk pe then .error .scatterIdType
  else if pe.ori then .error .scatterOri
  else if et = .vertex then
    let nodes2 :=
      writeVertexBlock ci (st.cnt.getD 0 0 * o.vertDofs) st.fmsOfs
        (pe.numEnts * o.vertDofs) st.nodes
    .ok { nodes := nodes2,
          fmsOfs := st.fmsOfs + pe.numEnts * o.vertDofs,
          cnt := bumpCnt st.cnt 0 pe.numEnts,
          lastVertCnt := st.cnt.getD 0 0 }
  else if FmsEntityDim et = dim then
    let r := scatterCells o ci (entDofs o et) pe.numEnts (st.cnt.getD dim 0) st.nodes st.fmsOfs
    .ok { st with nodes := r.1, fmsOfs := r.2, cnt := bumpCnt st.cnt dim pe.numEnts }
  else scatterSwitch o ci eT fT st pe et

/-- Coordinate-scatter pass over all parts of the main component and all
entity types. -/
def scatterPass (o : MfemOracle) (ci : CoordsInfo) (dim : Nat)
    (eT : HTable (Nat × Nat)) (fT : HTable (List Nat))
    (parts : List FmsPart) (st0 : ScatterState) : Except Err ScatterState :=
  parts.foldlM
    (fun st part =>
      FmsEntityType.all.foldlM (fun st et => scatterEntry o ci dim eT fT st (part.entries et) et) st)
    st0

/-! ### The conversion core -/

/-- Search for the main component: the first component carrying a
coordinates field, together with its index. -/
def findMainCompAux : Nat → List FmsComponent → Option (Nat × FmsComponent)
  | _, [] => none
  | i, c :: cs => if c.coords.isSome then some (i, c) else findMainCompAux (i + 1) cs

/-- Search the main component's relations for the boundary component: the
first related component of dimension `dim - 1`.  When `dim = 0` the C
comparison `comp_dim == dim-1` underflows and never holds. -/
def findBdrCompAux (comps : List FmsComponent) (dim : Nat) :
    List Nat → Option (Nat × FmsComponent)
  | [] => none
  | r :: rs =>
    match comps[r]? with
    | none => findBdrCompAux comps dim rs
    | some c =>
      if dim ≠ 0 ∧ c.dim = dim - 1 then some (r, c) else findBdrCompAux comps dim rs

/-- The body of `FmsMeshToMesh` up to `func_exit`: every `err = n; goto
func_exit;` site is an `Except.error`, falling through with `err == 0` is
`Except.ok` with the built mesh. -/
def FmsMeshToMeshCore (fms : FmsMesh) (o : MfemOracle) : Except Err MeshModel :=
  match findMainCompAux 0 fms.components with
  | none => .error .noCoords
  | some (mainIdx, main) =>
    match main.coords with
    | none => .error .noCoords
    | some coords => do
      let dim := main.dim
      let nEnts : FmsEntityType → Nat := fun et =>
        (main.parts.map (fun p => (p.entries et).numEnts)).sum
      let nVert := nEnts .vertex
      let bdr := findBdrCompAux fms.components dim main.relations
      let spaceDim := coords.spaceDim
      let mesh0 : MeshModel :=
        { dim := dim, spaceDim := spaceDim, elements := [], bdrElements := [],
          numVertices := 0, nodes := [] }
      let tagsSel := selectTags fms.tags mainIdx (bdr.map (fun b => b.1))
      let attr ← convertAttr .attrType tagsSel.1
      let bdrAttr ← convertAttr .bdrAttrType tagsSel.2
      let mesh1 ← addElementsPass dim attr main.parts mesh0
      let mesh2 ←
        match bdr with
        | some (_, bc) =>
          if 0 < bc.numEntities then addBdrPass dim bdrAttr bc.parts mesh1 else pure mesh1
        | none => pure mesh1
      if coords.dataType ≠ .double then .error .coordsNotDouble
      else if coords.fd.descType ≠ .fixedOrder then .error .notFixedOrder
      else if coords.fd.fieldType ≠ .continuous then .error .notContinuous
      else if coords.fd.basisType ≠ .nodalGaussClosed then .error .basisNotClosed
      else do
        let numDofs := coords.fd.numDofs
        let nstride := if coords.layout = .byVDim then spaceDim else 1
        let vstride := if coords.layout = .byVDim then 1 else numDofs
        let mesh3 := { mesh2 with numVertices := nVert, nodes := o.initNodes }
        if o.initNodes.length ≠ numDofs * spaceDim then .error .nodeCountMismatch
        else do
          let ci : CoordsInfo :=
            { data := coords.data, nstride := nstride, vstride := vstride, vdim := spaceDim }
          let eT ←
            if 2 ≤ dim ∧ 0 < o.edgeDofs then buildEdgeTable o.edges
            else pure ⟨[]⟩
          let fT ←
            if 3 ≤ dim ∧ ((0 < nEnts .triangle ∧ 0 < o.triDofs) ∨
                          (0 < nEnts .quadrilateral ∧ 0 < o.quadDofs)) then
              buildFaceTable o.faces
            else pure ⟨[]⟩
          let st0 : ScatterState :=
            { nodes := o.initNodes, fmsOfs := 0, cnt := [0, 0, 0, 0], lastVertCnt := 0 }
          let stF ← scatterPass o ci dim eT fT main.parts st0
          pure { mesh3 with nodes := stF.nodes }

/-- Observable outcome of one `FmsMeshToMesh` call: the returned code, the
value of the caller's `Mesh **` slot after the call (given its value
before), and whether the function executed `delete mesh` on the internally
allocated target mesh. -/
structure CallResult where
  ret : Nat
  out : Option MeshModel
  deleted : Bool
deriving DecidableEq

/-- The whole of `FmsMeshToMesh` including the `func_exit` epilogue:
`if (err) { delete mesh; } else { *mfem_mesh = mesh; } return err;`.
The early `return 1` (no component with coordinates) happens before the
target mesh is allocated, so nothing is deleted there. -/
def FmsMeshToMesh (fms : FmsMesh) (o : MfemOracle) (prev : Option MeshModel) :
    CallResult :=
  match FmsMeshToMeshCore fms o with
  | .ok m => { ret := 0, out := some m, deleted := false }
  | .error e =>
    { ret := e.code, out := prev, deleted := if e = Err.noCoords then false else true }

/-- A target data collection: a name and the wrapped mesh. -/
structure DataCollectionModel where
  name : String
  mesh : MeshModel
deriving DecidableEq

/-- The whole of `FmsDataCollectionToDataCollection`: convert the
collection's mesh; on code 0 wrap it in a named collection, store it in the
caller's slot and set `retval = true` (which, as an `int`, stores 1); on a
nonzero code leave the slot alone and set `retval = 1`. -/
def FmsDataCollectionToDataCollection (dc : FmsDataCollection) (o : MfemOracle)
    (prev : Option DataCollectionModel) : Nat × Option DataCollectionModel :=
  match FmsMeshToMeshCore dc.mesh o with
  | .ok m => (1, some { name := "collection", mesh := m })
  | .error _ => (1, prev)

/-! ### Concrete instances

A small concrete source mesh (one triangle, three vertices, an order-1
coordinates field) and the matching finalized-mesh oracle, used to evaluate
the model on closed inputs.  `exPart true` additionally attaches a non-null
orientation-flag array to the part's edge enumeration. -/

/-- Order-1, 2-vector coordinates field over 3 DOFs, laid out by nodes. -/
def exField : FmsField :=
  { spaceDim := 2, layout := .byNodes, dataType := .double,
    data := [1, 2, 3, 4, 5, 6],
    fd := { numDofs := 3, descType := .fixedOrder, fieldType := .continuous,
            basisType := .nodalGaussClosed, order := 1 } }

/-- An empty part entry. -/
def exEntry0 : FmsPartEntry :=
  { domVerts := [], entIds := none, idType := .int32, ori := false, numEnts := 0 }

/-- The single part of the main component: 3 vertices, 3 edges (carrying an
orientation-flag array when `oriFlag` is set), one triangle. -/
def exPart (oriFlag : Bool) : FmsPart :=
  ⟨fun et =>
    match et with
    | .vertex => { domVerts := [], entIds := none, idType := .int32, ori := false, numEnts := 3 }
    | .edge => { domVerts := [[0, 1], [1, 2], [0, 2]], entIds := none, idType := .int32,
                 ori := oriFlag, numEnts := 3 }
    | .triangle => { domVerts := [[0, 1, 2]], entIds := none, idType := .int32,
                     ori := false, numEnts := 1 }
    | _ => exEntry0⟩

/-- One-triangle source mesh, no tags, no boundary component. -/
def exMesh : FmsMesh :=
  { components := [{ dim := 2, coords := some exField, numEntities := 1,
                     parts := [exPart false], relations := [] }],
    tags := [] }

/-- The same source mesh with a non-null orientation-flag array on the main
part's edge enumeration. -/
def exMeshOri : FmsMesh :=
  { components := [{ dim := 2, coords := some exField, numEntities := 1,
                     parts := [exPart true], relations := [] }],
    tags := [] }

/-- Oracle for the finalized one-triangle target mesh with an order-1 `H1`
collection: 1 DOF per vertex, none per edge/face/cell (spec section 8: the
order-1 case has no interior, edge or face DOFs). -/
def exOracle : MfemOracle :=
  { edges := [(0, 1), (1, 2), (0, 2)], faces := [],
    vertDofs := 1, edgeDofs := 0, triDofs := 0, quadDofs := 0, tetDofs := 0, hexDofs := 0,
    initNodes := [0, 0, 0, 0, 0, 0],
    elemInteriorDofs := fun _ => [],
    edgeInteriorDofs := fun _ => [],
    faceInteriorDofs := fun _ => [],
    dofToVDof := fun d j => d + 3 * j,
    dofOrderForOrientation := fun _ _ i => i }

/-- The target mesh the converter builds from `exMesh` (and from
`exMeshOri`). -/
def exTargetMesh : MeshModel :=
  { dim := 2, spaceDim := 2,
    elements := [{ geom := .triangle, attr := 1, verts := [0, 1, 2] }],
    bdrElements := [], numVertices := 3,
    nodes := [1, 2, 3, 4, 5, 6] }

/-- A source mesh with no components: the converter's early failure. -/
def emptyMesh : FmsMesh := { components := [], tags := [] }

/-! ### Helper lemmas -/

theorem lookupIdx_some_lt {α : Type} [DecidableEq α] :
    ∀ (l : List α) (x : α) (i : Nat), lookupIdx l x = some i → i < l.length := by
  intro l
  induction l with
  | nil => intro x i h; simp [lookupIdx] at h
  | cons k ks ih =>
    intro x i h
    by_cases hk : k = x
    · simp [lookupIdx, hk] at h
      simp [← h]
    · simp only [lookupIdx, if_neg hk] at h
      cases hm : lookupIdx ks x with
      | none => rw [hm] at h; simp at h
      | some j =>
        rw [hm] at h
        injection h with h2
        have h3 : j + 1 = i := h2
        have hj := ih x j hm
        simp only [List.length_cons]
        omega

theorem lookupIdx_none_not_mem {α : Type} [DecidableEq α] :
    ∀ (l : List α) (x : α), lookupIdx l x = none → x ∉ l := by
  intro l
  induction l with
  | nil => intro x _; simp
  | cons k ks ih =>
    intro x h
    by_cases hk : k = x
    · simp [lookupIdx, hk] at h
    · simp only [lookupIdx, if_neg hk] at h
      cases hm : lookupIdx ks x with
      | none =>
        intro hmem
        rcases List.mem_cons.mp hmem with h1 | h1
        · exact hk h1.symm
        · exact ih x hm h1
      | some j => rw [hm] at h; simp at h

theorem lookupIdx_some_get {α : Type} [DecidableEq α] :
    ∀ (l : List α) (x : α) (i : Nat), lookupIdx l x = some i →
      ∃ h : i < l.length, l.get ⟨i, h⟩ = x := by
  intro l
  induction l with
  | nil => intro x i h; simp [lookupIdx] at h
  | cons k ks ih =>
    intro x i h
    by_cases hk : k = x
    · simp [lookupIdx, hk] at h
      exact ⟨by simp [← h], by simp [← h, hk]⟩
    · simp only [lookupIdx, if_neg hk] at h
      cases hm : lookupIdx ks x with
      | none => rw [hm] at h; simp at h
      | some j =>
        rw [hm] at h
        injection h with h2
        have h3 : j + 1 = i := h2
        obtain ⟨hj, hget⟩ := ih x j hm
        subst h3
        exact ⟨by simp only [List.length_cons]; omega, hget⟩

theorem lookupIdx_get_of_nodup {α : Type} [DecidableEq α] :
    ∀ (l : List α), l.Nodup → ∀ (i : Nat) (h : i < l.length),
      lookupIdx l (l.get ⟨i, h⟩) = some i := by
  intro l
  induction l with
  | nil => intro _ i h; simp at h
  | cons k ks ih =>
    intro hnd i h
    rcases List.nodup_cons.mp hnd with ⟨hk, hnd2⟩
    cases i with
    | zero => simp [lookupIdx]
    | succ j =>
      have hj : j < ks.length := by simpa using h
      have hmem : ks.get ⟨j, hj⟩ ∈ ks := List.get_mem ks j hj
      have hne : k ≠ ks.get ⟨j, hj⟩ := fun he => hk (he ▸ hmem)
      show lookupIdx (k :: ks) (ks.get ⟨j, hj⟩) = some (j + 1)
      simp only [lookupIdx, if_neg hne]
      rw [ih hnd2 j hj]
      rfl

theorem get_map_at {α β : Type} (f : α → β) :
    ∀ (l : List α) (i : Nat) (h : i < l.length) (h2 : i < (l.map f).length),
      (l.map f).get ⟨i, h2⟩ = f (l.get ⟨i, h⟩) := by
  intro l
  induction l with
  | nil => intro i h; simp at h
  | cons a rest ih =>
    intro i h h2
    cases i with
    | zero => rfl
    | succ j => exact ih j (by simpa using h) (by simpa using h2)

theorem buildTableAux_ok {α : Type} [DecidableEq α] (E : Err) :
    ∀ (ks : List α) (t t' : HTable α),
      buildTableAux E t t.keys.length ks = .ok t' →
      t'.keys = t.keys ++ ks ∧ (∀ k ∈ ks, k ∉ t.keys) ∧ ks.Nodup := by
  intro ks
  induction ks with
  | nil =>
    intro t t' h
    simp only [buildTableAux] at h
    cases h
    simp
  | cons k ks2 ih =>
    intro t t' h
    simp only [buildTableAux, HTable.getId] at h
    cases hm : lookupIdx t.keys k with
    | some j =>
      rw [hm] at h
      have hj := lookupIdx_some_lt t.keys k j hm
      simp only [if_neg (by omega : ¬ j = t.keys.length)] at h
      cases h
    | none =>
      rw [hm] at h
      simp only [if_pos rfl] at h
      have hlen : (⟨t.keys ++ [k]⟩ : HTable α).keys.length = t.keys.length + 1 := by
        simp
      rw [← hlen] at h
      obtain ⟨hkeys, hdisj, hnd⟩ := ih ⟨t.keys ++ [k]⟩ t' h
      have hknot : k ∉ t.keys := lookupIdx_none_not_mem t.keys k hm
      refine ⟨by simp [hkeys], ?_, ?_⟩
      · intro k2 hk2
        rcases List.mem_cons.mp hk2 with h1 | h1
        · exact h1 ▸ hknot
        · intro hmem
          exact hdisj k2 h1 (by simp [hmem])
      · refine List.nodup_cons.mpr ⟨?_, hnd⟩
        intro hkin
        exact hdisj k hkin (by simp)

theorem buildTable_ok {α : Type} [DecidableEq α] (E : Err) (ks : List α) (t' : HTable α)
    (h : buildTable E ks = .ok t') : t'.keys = ks ∧ ks.Nodup := by
  have h0 : buildTableAux E (⟨[]⟩ : HTable α) (⟨[]⟩ : HTable α).keys.length ks = .ok t' := h
  obtain ⟨h1, _, h3⟩ := buildTableAux_ok E ks ⟨[]⟩ t' h0
  exact ⟨by simpa using h1, h3⟩

theorem buildTable_findId {α : Type} [DecidableEq α] (E : Err) (ks : List α) (t' : HTable α)
    (h : buildTable E ks = .ok t') (i : Nat) (hi : i < ks.length) :
    t'.findId (ks.get ⟨i, hi⟩) = some i := by
  obtain ⟨hk, hnd⟩ := buildTable_ok E ks t' h
  rw [HTable.findId, hk]
  exact lookupIdx_get_of_nodup ks hnd i hi

theorem buildTableAux_error {α : Type} [DecidableEq α] (E : Err) :
    ∀ (ks : List α) (t : HTable α) (i : Nat) (e : Err),
      buildTableAux E t i ks = .error e → e = E := by
  intro ks
  induction ks with
  | nil => intro t i e h; simp [buildTableAux] at h
  | cons k ks2 ih =>
    intro t i e h
    simp only [buildTableAux] at h
    by_cases hc : (t.getId k).2 = i
    · rw [if_pos hc] at h
      exact ih _ _ e h
    · rw [if_neg hc] at h
      cases h
      rfl

theorem rotIdx_lt_of_mem :
    ∀ (tv : List Nat) (v : Nat), v ∈ tv → rotIdx tv v < tv.length := by
  intro tv v
  induction tv with
  | nil => simp
  | cons a rest ih =>
    intro hm
    by_cases ha : a = v
    · simp [rotIdx, ha]
    · have hrest : v ∈ rest := by
        rcases List.mem_cons.mp hm with h1 | h1
        · exact absurd h1.symm ha
        · exact h1
      simp only [rotIdx, if_neg ha, List.length_cons]
      have := ih hrest
      omega

theorem rotIdx_eq_of_least :
    ∀ (tv : List Nat) (v : Nat) (k : Nat) (hk : k < tv.length),
      tv.get ⟨k, hk⟩ = v →
      (∀ (j : Nat) (hj : j < tv.length), j < k → tv.get ⟨j, hj⟩ ≠ v) →
      rotIdx tv v = k := by
  intro tv
  induction tv with
  | nil => intro v k hk; simp at hk
  | cons a rest ih =>
    intro v k hk hget hleast
    cases k with
    | zero =>
      have ha : a = v := hget
      simp [rotIdx, ha]
    | succ k0 =>
      have ha : a ≠ v := hleast 0 (by simp) (by omega)
      have hk0 : k0 < rest.length := by simpa using hk
      have hget2 : rest.get ⟨k0, hk0⟩ = v := hget
      have hleast2 : ∀ (j : Nat) (hj : j < rest.length), j < k0 → rest.get ⟨j, hj⟩ ≠ v := by
        intro j hj hlt
        have hj2 : j + 1 < (a :: rest).length := by simpa using hj
        have := hleast (j + 1) hj2 (by omega)
        simpa using this
      simp only [rotIdx, if_neg ha]
      rw [ih v k0 hk0 hget2 hleast2]

theorem mkCells_getD :
    ∀ (vs : List (List Nat)) (g : Geom) (attr : Option (List Int)) (off i : Nat)
      (d : MeshElem), i < vs.length →
      (mkCells g attr off vs).getD i d = ⟨g, tagAttr attr (off + i), vs.getD i []⟩ := by
  intro vs
  induction vs with
  | nil => intro g attr off i d h; simp at h
  | cons v rest ih =>
    intro g attr off i d h
    cases i with
    | zero => simp [mkCells]
    | succ j =>
      have hj : j < rest.length := by simpa using h
      simp only [mkCells, List.getD_cons_succ]
      rw [ih g attr (off + 1) j d hj]
      have : off + 1 + j = off + (j + 1) := by omega
      rw [this]

theorem Err.code_ne_zero : ∀ e : Err, e.code ≠ 0 := by
  intro e
  cases e <;> simp [Err.code]

/-! ### Claim theorems -/

/-- C1: `FmsMeshToMesh` returns 0 and stores the fully built target mesh in
the caller's slot exactly when the conversion succeeds; on every failure
the returned code is nonzero, the caller's slot keeps its prior value, and
the partially built target mesh — allocated on every path except the early
no-coordinates return, where none exists yet — is deleted inside the
function before it returns. -/
theorem fmsMeshToMesh_ownership_contract (fms : FmsMesh) (o : MfemOracle)
    (prev : Option MeshModel) :
    ((FmsMeshToMesh fms o prev).ret = 0 ↔ ∃ m, FmsMeshToMeshCore fms o = .ok m) ∧
    (∀ m, FmsMeshToMeshCore fms o = .ok m →
      FmsMeshToMesh fms o prev = { ret := 0, out := some m, deleted := false }) ∧
    (∀ e, FmsMeshToMeshCore fms o = .error e →
      (FmsMeshToMesh fms o prev).ret = e.code ∧ e.code ≠ 0 ∧
      (FmsMeshToMesh fms o prev).out = prev ∧
      (e ≠ Err.noCoords → (FmsMeshToMesh fms o prev).deleted = true)) := by
  cases h : FmsMeshToMeshCore fms o with
  | ok m =>
    refine ⟨by simp [FmsMeshToMesh, h], ?_, ?_⟩
    · intro m2 h2
      injection h2 with h3
      subst h3
      simp [FmsMeshToMesh, h]
    · intro e he
      exact Except.noConfusion he
  | error e =>
    refine ⟨?_, ?_, ?_⟩
    · simp only [FmsMeshToMesh, h]
      constructor
      · intro hc
        exact absurd hc (Err.code_ne_zero e)
      · rintro ⟨m, hm⟩
        exact Except.noConfusion hm
    · intro m2 h2
      exact Except.noConfusion h2
    · intro e2 he
      injection he with h3
      subst h3
      refine ⟨by simp [FmsMeshToMesh, h], Err.code_ne_zero e, by simp [FmsMeshToMesh, h], ?_⟩
      intro hne
      simp [FmsMeshToMesh, h, hne]

/-- Witness for C1 at the concrete one-triangle source mesh: the call
returns 0 and stores the built target mesh. -/
theorem fmsMeshToMesh_ownership_contract_witness :
    (FmsMeshToMesh exMesh exOracle none).ret = 0 ∧
    (FmsMeshToMesh exMesh exOracle none).out = some exTargetMesh := by
  have h := (fmsMeshToMesh_ownership_contract exMesh exOracle none).2.1 exTargetMesh rfl
  exact ⟨by rw [h], by rw [h]⟩

/-- C4: `FmsDataCollectionToDataCollection` returns 1 both when the
underlying `FmsMeshToMesh` conversion succeeds (`retval = true` stores the
int 1) and when it fails (`retval = 1`), so its return value does not
distinguish success from failure; only the output slot differs. -/
theorem dataCollection_return_indistinguishable :
    FmsMeshToMeshCore exMesh exOracle = .ok exTargetMesh ∧
    FmsDataCollectionToDataCollection ⟨exMesh⟩ exOracle none
      = (1, some { name := "collection", mesh := exTargetMesh }) ∧
    FmsMeshToMeshCore emptyMesh exOracle = .error .noCoords ∧
    FmsDataCollectionToDataCollection ⟨emptyMesh⟩ exOracle none = (1, none) :=
  ⟨rfl, rfl, rfl, rfl⟩

/-- C6 counterexample: a source mesh whose main part's edge enumeration
carries a non-null orientation-flag array converts successfully — code 0
and a produced mesh — because the order-1 field gives edges zero interior
DOFs, so the coordinate scatter skips the flagged batch before its
orientation check, and neither construction pass ever looks at
dimension-1 entities of a 2D main component. -/
theorem oriFlag_mesh_converts_counterexample :
    FmsMesh.hasOriEntry exMeshOri = true ∧
    FmsMeshToMesh exMeshOri exOracle none
      = { ret := 0, out := some exTargetMesh, deleted := false } :=
  ⟨rfl, rfl⟩

/-- C6 amended: a non-null orientation-flag array is a hard failure exactly
where the converter checks it — nonzero-count batches of top-dimension
entity types in element construction (code 4), nonzero-count batches of
dimension `dim - 1` in boundary construction (code 7), and nonzero-count
batches whose entity type has nonzero interior-DOF count in the coordinate
scatter (code 16); a flagged batch that is skipped (zero entities, wrong
dimension, or zero interior DOFs during scatter) raises no error. -/
theorem oriFlag_checked_sites (pe : FmsPartEntry) :
    (∀ (dim : Nat) (attr : Option (List Int)) (mesh : MeshModel) (et : FmsEntityType),
      FmsEntityDim et = dim → pe.numEnts ≠ 0 → idTypeOk pe = true → pe.ori = true →
      addElementsEntry dim attr mesh pe et = .error .elemOri ∧ Err.code .elemOri = 4) ∧
    (∀ (dim : Nat) (attr : Option (List Int)) (mesh : MeshModel) (et : FmsEntityType),
      dim ≠ 0 → FmsEntityDim et = dim - 1 → pe.numEnts ≠ 0 → idTypeOk pe = true →
      pe.ori = true →
      addBdrEntry dim attr mesh pe et = .error .bdrOri ∧ Err.code .bdrOri = 7) ∧
    (∀ (o : MfemOracle) (ci : CoordsInfo) (dim : Nat) (eT : HTable (Nat × Nat))
        (fT : HTable (List Nat)) (st : ScatterState) (et : FmsEntityType),
      pe.numEnts ≠ 0 → entDofs o et ≠ 0 → idTypeOk pe = true → pe.ori = true →
      scatterEntry o ci dim eT fT st pe et = .error .scatterOri ∧
        Err.code .scatterOri = 16) := by
  refine ⟨?_, ?_, ?_⟩
  · intro dim attr mesh et hdim hn hid hori
    unfold addElementsEntry
    rw [if_neg (by simp [hdim]), if_neg hn, if_neg (by simp [hid]), if_pos hori]
    exact ⟨rfl, rfl⟩
  · intro dim attr mesh et hd hdim hn hid hori
    unfold addBdrEntry
    rw [if_neg (by simp [hd, hdim]), if_neg hn, if_neg (by simp [hid]), if_pos hori]
    exact ⟨rfl, rfl⟩
  · intro o ci dim eT fT st et hn hdofs hid hori
    unfold scatterEntry
    rw [if_neg hn, if_neg hdofs, if_neg (by simp [hid]), if_pos hori]
    exact ⟨rfl, rfl⟩

/-- Witness for the amended C6 at concrete flagged batches: all three
checked sites report their orientation error. -/
theorem oriFlag_checked_sites_witness :
    addElementsEntry 2 none ⟨2, 2, [], [], 0, []⟩
      ⟨[[0, 1, 2]], none, .int32, true, 1⟩ .triangle = .error .elemOri ∧
    addBdrEntry 2 none ⟨2, 2, [], [], 0, []⟩
      ⟨[[0, 1]], none, .int32, true, 1⟩ .edge = .error .bdrOri ∧
    scatterEntry exOracle ⟨[], 1, 1, 1⟩ 2 ⟨[]⟩ ⟨[]⟩ ⟨[], 0, [0, 0, 0, 0], 0⟩
      ⟨[], none, .int32, true, 2⟩ .vertex = .error .scatterOri := by
  refine ⟨((oriFlag_checked_sites ⟨[[0, 1, 2]], none, .int32, true, 1⟩).1 2 none
            ⟨2, 2, [], [], 0, []⟩ .triangle rfl (by decide) (by decide) rfl).1,
          ((oriFlag_checked_sites ⟨[[0, 1]], none, .int32, true, 1⟩).2.1 2 none
            ⟨2, 2, [], [], 0, []⟩ .edge (by decide) rfl (by decide) (by decide) rfl).1,
          ((oriFlag_checked_sites ⟨[], none, .int32, true, 2⟩).2.2 exOracle ⟨[], 1, 1, 1⟩ 2
            ⟨[]⟩ ⟨[]⟩ ⟨[], 0, [0, 0, 0, 0], 0⟩ .vertex (by decide) (by decide)
            (by decide) rfl).1⟩

/-- C10: on every failing conversion neither `FmsMeshToMesh` nor
`FmsDataCollectionToDataCollection` writes through its caller-supplied
output pointer — the slot keeps whatever value the caller stored there —
and the slot is assigned only on the success path. -/
theorem no_output_write_on_failure :
    (∀ (fms : FmsMesh) (o : MfemOracle) (prev : Option MeshModel) (e : Err),
      FmsMeshToMeshCore fms o = .error e → (FmsMeshToMesh fms o prev).out = prev) ∧
    (∀ (dc : FmsDataCollection) (o : MfemOracle) (prev : Option DataCollectionModel)
        (e : Err),
      FmsMeshToMeshCore dc.mesh o = .error e →
      (FmsDataCollectionToDataCollection dc o prev).2 = prev) := by
  constructor
  · intro fms o prev e h
    simp [FmsMeshToMesh, h]
  · intro dc o prev e h
    simp [FmsDataCollectionToDataCollection, h]

/-- Witness for C10 at the concrete no-component source mesh: both callers'
slots keep their prior values. -/
theorem no_output_write_on_failure_witness :
    (FmsMeshToMesh emptyMesh exOracle (some exTargetMesh)).out = some exTargetMesh ∧
    (FmsDataCollectionToDataCollection ⟨emptyMesh⟩ exOracle none).2 = none :=
  ⟨no_output_write_on_failure.1 emptyMesh exOracle (some exTargetMesh) Err.noCoords rfl,
   no_output_write_on_failure.2 ⟨emptyMesh⟩ exOracle none Err.noCoords rfl⟩

/-- C2: building the canonical entity index after topology finalization
inserts each target edge's sorted vertex key — and each target face's
sentinel-padded key — in target-internal sequential order; when the
construction succeeds, every inserted key's table id equals that entity's
pre-existing index; any mismatch is exactly the topology-index-mismatch
failure (code 13 for edges, 14 for faces), and every conversion failure
leaves the caller's mesh slot untouched, so no mesh is produced. -/
theorem canonicalIndex_sequential_ids (es : List (Nat × Nat)) (fs : List (List Nat)) :
    (∀ t, buildEdgeTable es = .ok t → ∀ (i : Nat) (h : i < es.length),
      t.findId (sortPair (es.get ⟨i, h⟩).1 (es.get ⟨i, h⟩).2) = some i) ∧
    (∀ e, buildEdgeTable es = .error e → e = .edgeIndexMismatch ∧ e.code = 13) ∧
    (∀ t, buildFaceTable fs = .ok t → ∀ (i : Nat) (h : i < fs.length),
      t.findId (faceKey (padFace (fs.get ⟨i, h⟩))) = some i) ∧
    (∀ e, buildFaceTable fs = .error e → e = .faceIndexMismatch ∧ e.code = 14) ∧
    (∀ (fms : FmsMesh) (o : MfemOracle) (prev : Option MeshModel) (e : Err),
      FmsMeshToMeshCore fms o = .error e → (FmsMeshToMesh fms o prev).out = prev) := by
  refine ⟨?_, ?_, ?_, ?_, ?_⟩
  · intro t ht i h
    have h2 : i < (es.map (fun e => sortPair e.1 e.2)).length := by simpa using h
    have h3 := buildTable_findId .edgeIndexMismatch _ t ht i h2
    rw [get_map_at (fun e => sortPair e.1 e.2) es i h h2] at h3
    exact h3
  · intro e he
    have h3 := buildTableAux_error .edgeIndexMismatch _ _ _ e he
    exact ⟨h3, by rw [h3]; rfl⟩
  · intro t ht i h
    have h2 : i < (fs.map (fun fv => faceKey (padFace fv))).length := by simpa using h
    have h3 := buildTable_findId .faceIndexMismatch _ t ht i h2
    rw [get_map_at (fun fv => faceKey (padFace fv)) fs i h h2] at h3
    exact h3
  · intro e he
    have h3 := buildTableAux_error .faceIndexMismatch _ _ _ e he
    exact ⟨h3, by rw [h3]; rfl⟩
  · intro fms o prev e h
    simp [FmsMeshToMesh, h]

/-- Witness for C2: the table built from two concrete target edges answers
the second edge's sorted key with id 1, and a failing conversion exposes no
mesh. -/
theorem canonicalIndex_sequential_ids_witness :
    HTable.findId (⟨[(0, 1), (1, 2)]⟩ : HTable (Nat × Nat)) (sortPair 1 2) = some 1 ∧
    (FmsMeshToMesh emptyMesh exOracle none).out = none := by
  have h1 := (canonicalIndex_sequential_ids [(0, 1), (1, 2)] []).1 ⟨[(0, 1), (1, 2)]⟩ rfl 1
      (by decide)
  have h2 := (canonicalIndex_sequential_ids [(0, 1), (1, 2)] []).2.2.2.2 emptyMesh exOracle
      none Err.noCoords rfl
  exact ⟨h1, h2⟩

/-- C5: in the element-construction pass a nonzero batch of top-dimension
edge entities is a hard failure with code 5, while in the
boundary-construction pass a batch of any geometry other than segment,
triangle or quadrilateral (passing the id and orientation preconditions)
leaves the mesh unchanged and raises no error. -/
theorem element_vs_boundary_geometry_dispatch :
    (∀ (attr : Option (List Int)) (mesh : MeshModel) (pe : FmsPartEntry),
      pe.numEnts ≠ 0 → idTypeOk pe = true → pe.ori = false →
      addElementsEntry 1 attr mesh pe .edge = .error .edgeElement ∧
      Err.code .edgeElement = 5) ∧
    (∀ (dim : Nat) (attr : Option (List Int)) (mesh : MeshModel) (pe : FmsPartEntry)
        (et : FmsEntityType),
      et ≠ .edge → et ≠ .triangle → et ≠ .quadrilateral →
      pe.numEnts ≠ 0 → idTypeOk pe = true → pe.ori = false →
      addBdrEntry dim attr mesh pe et = .ok mesh) := by
  constructor
  · intro attr mesh pe hn hid hori
    unfold addElementsEntry
    rw [if_neg (by simp [FmsEntityDim]), if_neg hn, if_neg (by simp [hid]),
        if_neg (by simp [hori])]
    exact ⟨rfl, rfl⟩
  · intro dim attr mesh pe et h1 h2 h3 hn hid hori
    unfold addBdrEntry
    by_cases hd : dim = 0 ∨ FmsEntityDim et ≠ dim - 1
    · rw [if_pos hd]
    · rw [if_neg hd, if_neg hn, if_neg (by simp [hid]), if_neg (by simp [hori])]
      cases et with
      | edge => exact absurd rfl h1
      | triangle => exact absurd rfl h2
      | quadrilateral => exact absurd rfl h3
      | vertex => rfl
      | tetrahedron => rfl
      | hexahedron => rfl

/-- Witness for C5: a top-dimension edge batch fails with code 5, and a
tetrahedron batch in a (hypothetical) boundary pass of dimension 3 is
skipped without error or mesh change. -/
theorem element_vs_boundary_geometry_dispatch_witness :
    addElementsEntry 1 none ⟨1, 1, [], [], 0, []⟩
      ⟨[[0, 1]], none, .int32, false, 1⟩ .edge = .error .edgeElement ∧
    addBdrEntry 4 none ⟨4, 3, [], [], 0, []⟩
      ⟨[[0, 1, 2, 3]], none, .int32, false, 1⟩ .tetrahedron = .ok ⟨4, 3, [], [], 0, []⟩ :=
  ⟨(element_vs_boundary_geometry_dispatch.1 none ⟨1, 1, [], [], 0, []⟩
      ⟨[[0, 1]], none, .int32, false, 1⟩ (by decide) (by decide) rfl).1,
   element_vs_boundary_geometry_dispatch.2 4 none ⟨4, 3, [], [], 0, []⟩
      ⟨[[0, 1, 2, 3]], none, .int32, false, 1⟩ .tetrahedron
      (by decide) (by decide) (by decide) (by decide) (by decide) rfl⟩

/-- C7: an element batch added with no attribute tag gives every element
attribute value 1; with a tag, the element inserted at running offset
`off + i` gets the tag value at that offset; and the element and boundary
add-loops append exactly such batches at their current element counts. -/
theorem attribute_default_and_tag (g : Geom) (a : List Int) (attr : Option (List Int))
    (vs : List (List Nat)) (off i : Nat) (d : MeshElem) (mesh : MeshModel) :
    (i < vs.length →
      (mkCells g none off vs).getD i d = ⟨g, 1, vs.getD i []⟩ ∧
      (mkCells g (some a) off vs).getD i d = ⟨g, a.getD (off + i) 0, vs.getD i []⟩) ∧
    (addCells g attr vs mesh).elements
      = mesh.elements ++ mkCells g attr mesh.elements.length vs ∧
    (addBdrCells g attr vs mesh).bdrElements
      = mesh.bdrElements ++ mkCells g attr mesh.bdrElements.length vs := by
  refine ⟨?_, rfl, rfl⟩
  intro h
  constructor
  · rw [mkCells_getD vs g none off i d h]
    rfl
  · rw [mkCells_getD vs g (some a) off i d h]
    rfl

/-- Witness for C7 at a concrete two-element batch: the untagged element
gets attribute 1, the tagged one gets the tag value at offset 6. -/
theorem attribute_default_and_tag_witness :
    (mkCells .triangle none 5 [[0, 1, 2], [3, 4, 5]]).getD 1 ⟨.point, 0, []⟩
      = ⟨.triangle, 1, [3, 4, 5]⟩ ∧
    (mkCells .triangle (some [10, 20, 30, 40, 50, 60, 70]) 5 [[0, 1, 2], [3, 4, 5]]).getD 1
        ⟨.point, 0, []⟩
      = ⟨.triangle, 70, [3, 4, 5]⟩ := by
  have h := (attribute_default_and_tag .triangle [10, 20, 30, 40, 50, 60, 70] none
      [[0, 1, 2], [3, 4, 5]] 5 1 ⟨.point, 0, []⟩
      ⟨0, 0, [], [], 0, []⟩).1 (by decide)
  refine ⟨?_, ?_⟩
  · rw [h.1]
    decide
  · rw [h.2]
    decide

/-- C8: `uint8` attribute tags are widened by copy and keep their numeric
values, while `int32`/`uint32` tags are reinterpreted in place as signed
32-bit integers, so an unsigned 32-bit value of `2^31` or more is stored as
its two's-complement negative counterpart. -/
theorem attr_tag_reinterpretation :
    (∀ vals : List Nat, tagValuesToInt .uint8 vals
       = some (vals.map (fun v => ((v % 256 : Nat) : Int)))) ∧
    (∀ v : Nat, v < 256 → ((v % 256 : Nat) : Int) = (v : Int)) ∧
    (∀ vals : List Nat, tagValuesToInt .uint32 vals = some (vals.map toInt32)) ∧
    (∀ v : Nat, v < 2147483648 → toInt32 v = (v : Int)) ∧
    (∀ v : Nat, 2147483648 ≤ v → v < 4294967296 →
      toInt32 v = (v : Int) - 4294967296 ∧ toInt32 v < 0) := by
  refine ⟨fun vals => rfl, ?_, fun vals => rfl, ?_, ?_⟩
  · intro v hv
    rw [Nat.mod_eq_of_lt (by omega)]
  · intro v hv
    unfold toInt32
    rw [Nat.mod_eq_of_lt (by omega)]
    rw [if_pos hv]
  · intro v h1 h2
    unfold toInt32
    rw [Nat.mod_eq_of_lt h2, if_neg (by omega)]
    constructor
    · rfl
    · omega

/-- Witness for C8 at the boundary value: `2^31` is stored as `-2^31`. -/
theorem attr_tag_reinterpretation_witness :
    toInt32 2147483648 = -2147483648 ∧ toInt32 255 = 255 := by
  have h1 := (attr_tag_reinterpretation.2.2.2.2 2147483648 (by omega) (by omega)).1
  have h2 := attr_tag_reinterpretation.2.2.2.1 255 (by omega)
  constructor
  · rw [h1]
    decide
  · rw [h2]
    decide

/-- C3: the relative orientation of a source edge is 0 exactly when its
first vertex equals the target edge's first canonical vertex and 1
otherwise; for a face of size `n` whose least rotation index `k` points at
the target face's first canonical vertex, the orientation code is `2k` when
the source's next vertex (mod `n`) equals the target's second canonical
vertex and `2k+1` otherwise; and each scatter step fetches the DOF
permutation of the entity's geometry at exactly that code. -/
theorem orientation_code_resolution :
    (∀ a b : Nat, edgeOri a b = if a = b then 0 else 1) ∧
    (∀ (n : Nat) (tv mev : List Nat) (k : Nat) (hk : k < tv.length),
      tv.get ⟨k, hk⟩ = mev.headD 0 →
      (∀ (j : Nat) (hj : j < tv.length), j < k → tv.get ⟨j, hj⟩ ≠ mev.headD 0) →
      faceOri n tv mev
        = if tv.getD ((k + 1) % n) 0 = mev.getD 1 0 then 2 * k else 2 * k + 1) ∧
    (∀ (o : MfemOracle) (ci : CoordsInfo) (eT : HTable (Nat × Nat))
        (rest : List (List Nat)) (ev : List Nat) (nodes : List Int) (fmsOfs id : Nat),
      eT.findId (sortPair (ev.getD 0 0) (ev.getD 1 0)) = some id →
      scatterEdges o ci eT (ev :: rest) nodes fmsOfs =
        scatterEdges o ci eT rest
          (writeInteriorDofs ci o.dofToVDof (o.edgeInteriorDofs id) o.edgeDofs fmsOfs
            (o.dofOrderForOrientation .segment
              (edgeOri (ev.getD 0 0) (o.edges.getD id (0, 0)).1)) nodes)
          (fmsOfs + o.edgeDofs)) ∧
    (∀ (o : MfemOracle) (ci : CoordsInfo) (fT : HTable (List Nat))
        (rest : List (List Nat)) (tv : List Nat) (nodes : List Int) (fmsOfs id : Nat),
      fT.findId (faceKey [tv.getD 0 0, tv.getD 1 0, tv.getD 2 0, INTMAX]) = some id →
      scatterTris o ci fT (tv :: rest) nodes fmsOfs =
        scatterTris o ci fT rest
          (writeInteriorDofs ci o.dofToVDof (o.faceInteriorDofs id) o.triDofs fmsOfs
            (o.dofOrderForOrientation .triangle (faceOri 3 tv (o.faces.getD id []))) nodes)
          (fmsOfs + o.triDofs)) ∧
    (∀ (o : MfemOracle) (ci : CoordsInfo) (fT : HTable (List Nat))
        (rest : List (List Nat)) (qv : List Nat) (nodes : List Int) (fmsOfs id : Nat),
      fT.findId (faceKey [qv.getD 0 0, qv.getD 1 0, qv.getD 2 0, qv.getD 3 0]) = some id →
      scatterQuads o ci fT (qv :: rest) nodes fmsOfs =
        scatterQuads o ci fT rest
          (writeInteriorDofs ci o.dofToVDof (o.faceInteriorDofs id) o.quadDofs fmsOfs
            (o.dofOrderForOrientation .square (faceOri 4 qv (o.faces.getD id []))) nodes)
          (fmsOfs + o.quadDofs)) := by
  refine ⟨fun a b => rfl, ?_, ?_, ?_, ?_⟩
  · intro n tv mev k hk hget hleast
    simp only [faceOri]
    rw [rotIdx_eq_of_least tv (mev.headD 0) k hk hget hleast]
  · intro o ci eT rest ev nodes fmsOfs id h
    simp only [scatterEdges, h]
  · intro o ci fT rest tv nodes fmsOfs id h
    simp only [scatterTris, h]
  · intro o ci fT rest qv nodes fmsOfs id h
    simp only [scatterQuads, h]

/-- Witness for C3 at concrete tuples: the rotation index 1 with a matching
next vertex gives code 2; a reversed edge gives orientation 1. -/
theorem orientation_code_resolution_witness :
    faceOri 3 [4, 7, 9] [7, 9, 4] = 2 ∧ edgeOri 3 5 = if 3 = 5 then 0 else 1 := by
  have h := orientation_code_resolution.2.1 3 [4, 7, 9] [7, 9, 4] 1 (by decide)
      (by decide) (by decide)
  constructor
  · rw [h]
    decide
  · exact orientation_code_resolution.1 3 5

/-- C9 counterexample: the face table built from the single target face
`[9, 1, 2, 3]` answers `FindId` positively for the source tuple
`[1, 2, 3, 7]` — their three smallest vertices agree — yet the target
face's first canonical vertex 9 does not occur in the source tuple, and the
rotation search reaches index 4, one past the face size. -/
theorem findId_without_membership_counterexample :
    buildFaceTable [[9, 1, 2, 3]] = .ok ⟨[[1, 2, 3]]⟩ ∧
    HTable.findId (⟨[[1, 2, 3]]⟩ : HTable (List Nat)) (faceKey [1, 2, 3, 7]) = some 0 ∧
    ([9, 1, 2, 3] : List Nat).headD 0 = 9 ∧
    ¬ (9 ∈ ([1, 2, 3, 7] : List Nat)) ∧
    rotIdx [1, 2, 3, 7] 9 = 4 :=
  ⟨rfl, rfl, rfl, by decide, rfl⟩

/-- C9 amended: a successful `FindId` guarantees only that the matched
target face's canonical key — its sentinel-padded, sorted three smallest
vertices — equals the source tuple's key; the target face's first canonical
vertex occurs in the source tuple, and the rotation search therefore stays
below the tuple length, under the additional assumption that every vertex
of the matched target face occurs in the source tuple (as holds when source
and target connectivity agree). -/
theorem findId_key_equality_and_bounded_rotation :
    (∀ (fs : List (List Nat)) (t : HTable (List Nat)) (k : List Nat) (id : Nat),
      buildFaceTable fs = .ok t → t.findId k = some id →
      ∃ h : id < fs.length, faceKey (padFace (fs.get ⟨id, h⟩)) = k) ∧
    (∀ (tv fv : List Nat), fv ≠ [] → (∀ x, x ∈ fv → x ∈ tv) →
      fv.headD 0 ∈ tv ∧ rotIdx tv (fv.headD 0) < tv.length) := by
  constructor
  · intro fs t k id hbuild hfind
    obtain ⟨hkeys, _⟩ := buildTable_ok .faceIndexMismatch _ t hbuild
    rw [HTable.findId, hkeys] at hfind
    obtain ⟨h2, hget⟩ := lookupIdx_some_get _ k id hfind
    have hlen : id < fs.length := by simpa using h2
    refine ⟨hlen, ?_⟩
    rw [← get_map_at (fun fv => faceKey (padFace fv)) fs id hlen h2]
    exact hget
  · intro tv fv hne hsub
    have hmem : fv.headD 0 ∈ fv := by
      cases fv with
      | nil => exact absurd rfl hne
      | cons a rest => exact List.mem_cons_self a rest
    have htv : fv.headD 0 ∈ tv := hsub _ hmem
    exact ⟨htv, rotIdx_lt_of_mem tv _ htv⟩

/-- Witness for the amended C9 at a concrete matching pair: the rotation
search over `[4, 5, 6]` for the face head 6 stays below the tuple length. -/
theorem findId_key_equality_and_bounded_rotation_witness :
    rotIdx [4, 5, 6] (([6, 5, 4] : List Nat).headD 0) < ([4, 5, 6] : List Nat).length :=
  (findId_key_equality_and_bounded_rotation.2 [4, 5, 6] [6, 5, 4]
    (by decide) (by decide)).2

end FmsConvert
